import Mathlib

/-!
Verification of the transcription wrapper in `pywhispercpp/model.py`.

The module under study is a thin Python layer over the whisper.cpp native
engine.  The engine itself is an external collaborator: we model its
observable outputs (segment count, per-segment times and text bytes, the
detected language id, the static language table) as an abstract
`EngineState`, and translate the wrapper functions that adapt those outputs
into Python values.  Python exceptions are modelled with `Option` / `Except`;
CPython string helpers used by the wrapper (`bytes.decode` with the
`replace` error handler, `str.strip`) are given executable Lean models.
Floating point does not appear: every arithmetic step the wrapper performs
on samples (int16 to float32 conversion and division by a power of two) is
exact in IEEE float32, so rationals model it faithfully.
-/

/-- Python `range(start, stop)` over naturals: the indices
`start, start+1, ..., stop-1` (empty when `stop ≤ start`). -/
def pyRange (start stop : Nat) : List Nat :=
  List.range' start (stop - start)

/-- The Unicode replacement character U+FFFD emitted by the `replace`
error handler. -/
def replacementChar : Char :=
  Char.ofNat 0xFFFD

/-- Is `b` a UTF-8 continuation byte (0x80-0xBF)? -/
def isCont (b : Nat) : Bool :=
  0x80 ≤ b && b ≤ 0xBF

/-- Admissible second byte after the lead byte `b1`, following RFC 3629 as
enforced by the CPython UTF-8 decoder: the restricted ranges exclude
overlong encodings, surrogate code points and values above U+10FFFF. -/
def isCont1 (b1 b2 : Nat) : Bool :=
  if b1 = 0xE0 then 0xA0 ≤ b2 && b2 ≤ 0xBF
  else if b1 = 0xED then 0x80 ≤ b2 && b2 ≤ 0x9F
  else if b1 = 0xF0 then 0x90 ≤ b2 && b2 ≤ 0xBF
  else if b1 = 0xF4 then 0x80 ≤ b2 && b2 ≤ 0x8F
  else isCont b2

/-- Model of CPython `bytes.decode("utf-8", errors="replace")`: a total
decoder that never raises; each ill-formed maximal subpart yields one
U+FFFD and decoding resumes at the first unconsumed byte. -/
def utf8DecodeReplace : List Nat → List Char
  | [] => []
  | b1 :: rest =>
    if b1 ≤ 0x7F then Char.ofNat b1 :: utf8DecodeReplace rest
    else if 0xC2 ≤ b1 && b1 ≤ 0xDF then
      match rest with
      | b2 :: rest2 =>
        if isCont b2 then
          Char.ofNat ((b1 - 0xC0) * 64 + (b2 - 0x80)) :: utf8DecodeReplace rest2
        else replacementChar :: utf8DecodeReplace (b2 :: rest2)
      | [] => [replacementChar]
    else if 0xE0 ≤ b1 && b1 ≤ 0xEF then
      match rest with
      | b2 :: rest2 =>
        if isCont1 b1 b2 then
          match rest2 with
          | b3 :: rest3 =>
            if isCont b3 then
              Char.ofNat ((b1 - 0xE0) * 4096 + (b2 - 0x80) * 64 + (b3 - 0x80)) ::
                utf8DecodeReplace rest3
            else replacementChar :: utf8DecodeReplace (b3 :: rest3)
          | [] => [replacementChar]
        else replacementChar :: utf8DecodeReplace (b2 :: rest2)
      | [] => [replacementChar]
    else if 0xF0 ≤ b1 && b1 ≤ 0xF4 then
      match rest with
      | b2 :: rest2 =>
        if isCont1 b1 b2 then
          match rest2 with
          | b3 :: rest3 =>
            if isCont b3 then
              match rest3 with
              | b4 :: rest4 =>
                if isCont b4 then
                  Char.ofNat ((b1 - 0xF0) * 262144 + (b2 - 0x80) * 4096 +
                    (b3 - 0x80) * 64 + (b4 - 0x80)) :: utf8DecodeReplace rest4
                else replacementChar :: utf8DecodeReplace (b4 :: rest4)
              | [] => [replacementChar]
            else replacementChar :: utf8DecodeReplace (b3 :: rest3)
          | [] => [replacementChar]
        else replacementChar :: utf8DecodeReplace (b2 :: rest2)
      | [] => [replacementChar]
    else replacementChar :: utf8DecodeReplace rest
termination_by l => l.length
decreasing_by all_goals simp_all [List.length_cons] <;> omega

/-- The decoder `bytes.decode("utf-8", errors="replace")` as a `String`. -/
def utf8DecodeReplaceStr (bs : List Nat) : String :=
  String.mk (utf8DecodeReplace bs)

/-- The characters removed by Python `str.strip()`: exactly those for which
`str.isspace` holds (ASCII whitespace, the information separators, NEL,
NBSP and the Unicode space category). -/
def isPySpace (c : Char) : Bool :=
  let n := c.toNat
  n = 0x09 || n = 0x0A || n = 0x0B || n = 0x0C || n = 0x0D ||
  n = 0x1C || n = 0x1D || n = 0x1E || n = 0x1F || n = 0x20 ||
  n = 0x85 || n = 0xA0 || n = 0x1680 || (0x2000 ≤ n && n ≤ 0x200A) ||
  n = 0x2028 || n = 0x2029 || n = 0x202F || n = 0x205F || n = 0x3000

/-- Model of Python `str.strip()`: drop leading and trailing whitespace. -/
def pyStrip (s : String) : String :=
  String.mk (((s.toList.dropWhile isPySpace).reverse.dropWhile isPySpace).reverse)

/-- Structure `Segment`: the transcription segment value built by the wrapper
(`model.py`, class `Segment`): raw engine start time `t0`, raw engine end
time `t1`, decoded text. -/
structure Segment where
  t0 : Int
  t1 : Int
  text : String
deriving DecidableEq, Repr

/-- Observable state of the native whisper.cpp context after (or during) a
decode, as read back through the bindings: `whisper_full_n_segments`,
`whisper_full_get_segment_t0/t1/text`, `whisper_full_lang_id`,
`whisper_lang_max_id` and `whisper_lang_str`.  The engine is the wrapped
external dependency, so its outputs are parameters of the model. -/
structure EngineState where
  nSegments : Nat
  t0 : Nat → Int
  t1 : Nat → Int
  textBytes : Nat → List Nat
  langId : Nat
  langMaxId : Nat
  langStr : Nat → String

/-- Body of the loop in `Model._get_segments`: build one `Segment` from the
engine data at index `i` (`model.py` lines 154-158). -/
def segmentOf (e : EngineState) (i : Nat) : Segment :=
  let t0 := e.t0 i
  let t1 := e.t1 i
  let bytes := e.textBytes i
  let text := utf8DecodeReplaceStr bytes
  ⟨t0, t1, pyStrip text⟩

/-- Method `Model._get_segments(ctx, start, stop)`: asserts `stop ≤ n_segments`
(`none` models the `AssertionError`), then appends one segment per index of
`range(start, stop)`. -/
def getSegments (e : EngineState) (start stop : Nat) : Option (List Segment) :=
  let n := e.nSegments
  if stop ≤ n then
    some ((pyRange start stop).foldl (fun res i => res ++ [segmentOf e i]) [])
  else none

/-- Method `Model.available_languages()`: `whisper_lang_str(i)` for each
`i in range(whisper_lang_max_id())`, appended in order. -/
def availableLanguages (e : EngineState) : List String :=
  (pyRange 0 e.langMaxId).foldl (fun res i => res ++ [e.langStr i]) []

/-- Method `Model._transcribe` after the engine call: read back all segments
`[0, n)` and the detected language id (`model.py` lines 256-258). -/
def transcribeInternal (e : EngineState) : Option (List Segment × Nat) :=
  match getSegments e 0 e.nSegments with
  | some res => some (res, e.langId)
  | none => none

/-- The result-adaptation tail of `Model.transcribe` (`model.py` lines
134-138): run `_transcribe`, then index `available_languages()` at the
reported language id (`none` models the `IndexError` when the id is out of
range). -/
def transcribeCore (e : EngineState) : Option (List Segment × String) :=
  match transcribeInternal e with
  | none => none
  | some (res, langId) =>
    if h : langId < (availableLanguages e).length then
      some (res, (availableLanguages e).get ⟨langId, h⟩)
    else none

lemma foldl_append_eq_map {α : Type} (f : Nat → α) (l : List Nat) (acc : List α) :
    l.foldl (fun res i => res ++ [f i]) acc = acc ++ l.map f := by
  induction l generalizing acc with
  | nil => simp
  | cons a l ih => simp [List.foldl_cons, ih]

lemma getSegments_full (e : EngineState) :
    getSegments e 0 e.nSegments = some ((List.range e.nSegments).map (segmentOf e)) := by
  unfold getSegments pyRange
  simp [foldl_append_eq_map, List.range_eq_range']

lemma availableLanguages_eq (e : EngineState) :
    availableLanguages e = (List.range e.langMaxId).map e.langStr := by
  unfold availableLanguages pyRange
  simp [foldl_append_eq_map, List.range_eq_range']

lemma availableLanguages_length (e : EngineState) :
    (availableLanguages e).length = e.langMaxId := by
  rw [availableLanguages_eq]; simp

lemma availableLanguages_get (e : EngineState) (h : e.langId < e.langMaxId)
    (hc : e.langId < (availableLanguages e).length) :
    (availableLanguages e).get ⟨e.langId, hc⟩ = e.langStr e.langId := by
  have h2 : (availableLanguages e).get? e.langId = some (e.langStr e.langId) := by
    rw [availableLanguages_eq, List.get?_map, List.get?_range h]; rfl
  have h3 := List.get?_eq_get hc
  rw [h2] at h3
  exact (Option.some_inj.mp h3).symm

lemma transcribeCore_eq (e : EngineState) (h : e.langId < e.langMaxId) :
    transcribeCore e =
      some ((List.range e.nSegments).map (fun i =>
        Segment.mk (e.t0 i) (e.t1 i) (pyStrip (utf8DecodeReplaceStr (e.textBytes i)))),
        e.langStr e.langId) := by
  have hc : e.langId < (availableLanguages e).length := by
    rw [availableLanguages_length]; exact h
  unfold transcribeCore transcribeInternal
  rw [getSegments_full]
  simp only [dif_pos hc]
  rw [availableLanguages_get e h hc]
  exact rfl

/-- Claim C1: on a successful call, `transcribe` returns one `Segment` per
engine-reported segment index in `[0, total)`, in index order; each carries
the raw engine start and end times unchanged, its text is the engine bytes
decoded as UTF-8 with errors replaced and then stripped of surrounding
whitespace; the returned language is the table entry at the engine's
reported language id. -/
theorem transcribe_adapts_segments (e : EngineState) (h : e.langId < e.langMaxId) :
    transcribeCore e =
      some ((List.range e.nSegments).map (fun i =>
        Segment.mk (e.t0 i) (e.t1 i) (pyStrip (utf8DecodeReplaceStr (e.textBytes i)))),
        e.langStr e.langId) :=
  transcribeCore_eq e h

/-- A concrete engine state used to instantiate hypotheses of the
segment-adaptation theorems. -/
def demoEngine : EngineState where
  nSegments := 2
  t0 := fun i => Int.ofNat (100 * i)
  t1 := fun i => Int.ofNat (100 * i + 50)
  textBytes := fun i => if i = 0 then [0x20, 0x68, 0x69] else [0x79, 0x6F, 0xFF]
  langId := 1
  langMaxId := 3
  langStr := fun i => if i = 0 then "en" else if i = 1 then "de" else "fr"

/-- Claim C1, witness: the adaptation theorem applied at a concrete engine
state. -/
theorem transcribe_adapts_segments_instance :
    demoEngine.langId < demoEngine.langMaxId ∧
    transcribeCore demoEngine =
      some ((List.range demoEngine.nSegments).map (fun i =>
        Segment.mk (demoEngine.t0 i) (demoEngine.t1 i)
          (pyStrip (utf8DecodeReplaceStr (demoEngine.textBytes i)))),
        demoEngine.langStr demoEngine.langId) :=
  ⟨by decide, transcribe_adapts_segments demoEngine (by decide)⟩

/-- Method `Model.__call_new_segment_callback(ctx, n_new, user_data)` (`model.py`
lines 260-274): read the current segment total `n`, compute the sub-range
start `n - n_new`, fetch those segments, resolve the detected language from
the language id available at callback time, and invoke the user callback
once per segment with the segment and the language.  The returned list is
the sequence of user-callback invocations; `none` models a raised
exception. -/
def callNewSegmentCallback (ctx : EngineState) (nNew : Nat) :
    Option (List (Segment × String)) :=
  match getSegments ctx (ctx.nSegments - nNew) ctx.nSegments with
  | none => none
  | some res =>
    if h : ctx.langId < (availableLanguages ctx).length then
      some (res.map (fun s => (s, (availableLanguages ctx).get ⟨ctx.langId, h⟩)))
    else none

/-- One engine progress report during decoding: the context state the
engine presents to the registered new-segment callback and the number of
newly completed segments it reports. -/
structure ProgressReport where
  snap : EngineState
  nNew : Nat

/-- A decoding run: the progress reports the engine issues while
`whisper_full` executes, followed by the final context state read back
after it returns. -/
structure EngineRun where
  reports : List ProgressReport
  final : EngineState

/-- Method `Model.transcribe` with a registered new-segment callback: the engine
drives `__call_new_segment_callback` once per progress report during the
blocking `whisper_full` call, and only afterwards is the result adapted
and returned, so the whole invocation trace is complete before the return
value exists. -/
def transcribeWithCallback (run : EngineRun) :
    Option (List (Segment × String) × (List Segment × String)) := do
  let traces ← run.reports.mapM (fun r => callNewSegmentCallback r.snap r.nNew)
  let result ← transcribeCore run.final
  pure (traces.join, result)

lemma getSegments_range (e : EngineState) (start : Nat) :
    getSegments e start e.nSegments =
      some ((pyRange start e.nSegments).map (segmentOf e)) := by
  unfold getSegments
  simp [foldl_append_eq_map]

lemma callNewSegmentCallback_eq (e : EngineState) (nNew : Nat)
    (hl : e.langId < e.langMaxId) :
    callNewSegmentCallback e nNew =
      some ((pyRange (e.nSegments - nNew) e.nSegments).map
        (fun i => (segmentOf e i, e.langStr e.langId))) := by
  have hc : e.langId < (availableLanguages e).length := by
    rw [availableLanguages_length]; exact hl
  unfold callNewSegmentCallback
  rw [getSegments_range e (e.nSegments - nNew)]
  simp only [dif_pos hc]
  rw [availableLanguages_get e hl hc]
  rw [List.map_map]
  rfl

lemma mapM_option_eq_map {α β : Type} (f : α → Option β) (g : α → β)
    (l : List α) (h : ∀ a ∈ l, f a = some (g a)) : l.mapM f = some (l.map g) := by
  induction l with
  | nil => rfl
  | cons a l ih =>
    rw [List.mapM_cons, h a (by simp)]
    rw [ih (fun x hx => h x (by simp [hx]))]
    rfl

/-- Claim C4: when a new-segment callback is registered, every engine
progress report reporting `nNew` new segments triggers exactly one user
callback invocation per segment index in
`[total_segments - nNew, total_segments)` (the sub-range has length `nNew`),
with the language resolved from the language id available at callback time,
and the full invocation trace is produced with (hence before) the value
`transcribe` returns. -/
theorem new_segment_callback_invocations (run : EngineRun)
    (hr : ∀ r ∈ run.reports,
      r.nNew ≤ r.snap.nSegments ∧ r.snap.langId < r.snap.langMaxId)
    (hf : run.final.langId < run.final.langMaxId) :
    transcribeWithCallback run =
      some ((run.reports.map (fun r =>
        (pyRange (r.snap.nSegments - r.nNew) r.snap.nSegments).map
          (fun i => (segmentOf r.snap i, r.snap.langStr r.snap.langId)))).join,
        ((List.range run.final.nSegments).map (fun i =>
          Segment.mk (run.final.t0 i) (run.final.t1 i)
            (pyStrip (utf8DecodeReplaceStr (run.final.textBytes i)))),
          run.final.langStr run.final.langId)) ∧
    (∀ r ∈ run.reports,
      (pyRange (r.snap.nSegments - r.nNew) r.snap.nSegments).length = r.nNew) := by
  constructor
  · unfold transcribeWithCallback
    rw [mapM_option_eq_map _
      (fun r => (pyRange (r.snap.nSegments - r.nNew) r.snap.nSegments).map
        (fun i => (segmentOf r.snap i, r.snap.langStr r.snap.langId)))
      _ (fun r hmem => callNewSegmentCallback_eq r.snap r.nNew (hr r hmem).2)]
    rw [transcribeCore_eq run.final hf]
    rfl
  · intro r hmem
    have hn := (hr r hmem).1
    unfold pyRange
    rw [List.length_range']
    omega

/-- A concrete decoding run used to instantiate the callback theorem. -/
def demoRun : EngineRun where
  reports := [⟨demoEngine, 1⟩]
  final := demoEngine

/-- Claim C4, witness: the callback-invocation theorem applied at a
concrete decoding run. -/
theorem new_segment_callback_invocations_instance :
    ((∀ r ∈ demoRun.reports,
      r.nNew ≤ r.snap.nSegments ∧ r.snap.langId < r.snap.langMaxId) ∧
     demoRun.final.langId < demoRun.final.langMaxId) ∧
    (transcribeWithCallback demoRun =
      some ((demoRun.reports.map (fun r =>
        (pyRange (r.snap.nSegments - r.nNew) r.snap.nSegments).map
          (fun i => (segmentOf r.snap i, r.snap.langStr r.snap.langId)))).join,
        ((List.range demoRun.final.nSegments).map (fun i =>
          Segment.mk (demoRun.final.t0 i) (demoRun.final.t1 i)
            (pyStrip (utf8DecodeReplaceStr (demoRun.final.textBytes i)))),
          demoRun.final.langStr demoRun.final.langId)) ∧
    (∀ r ∈ demoRun.reports,
      (pyRange (r.snap.nSegments - r.nNew) r.snap.nSegments).length = r.nNew)) :=
  ⟨⟨by decide, by decide⟩,
    new_segment_callback_invocations demoRun (by decide) (by decide)⟩

/-- The two places a new-segment callback registration lives, from
`Model.transcribe` (`model.py` lines 126-129): the process-wide class
attribute `Model._new_segment_callback` (line 67) holding the user
callback, and the flag recording that `assign_new_segment_callback` has
installed the internal trampoline into the params struct. -/
structure CallbackRegistry (α : Type) where
  classSlot : Option α
  paramsAssigned : Bool
deriving DecidableEq, Repr

/-- The callback-setup step of `Model.transcribe` (`model.py` lines
126-129): when a callback is supplied, store it in the class slot and
install the trampoline in the params struct; when none is supplied, do
nothing — there is no branch that clears either location. -/
def setupCallback {α : Type} (reg : CallbackRegistry α) (cb : Option α) :
    CallbackRegistry α :=
  match cb with
  | some c => { classSlot := some c, paramsAssigned := true }
  | none => reg

/-- Modelled from the spec: the engine invokes the callback installed in
the params struct during decoding (spec section 5, the process-wide
callback slot); the installed trampoline forwards every invocation to the
class slot `Model._new_segment_callback`.  The native registration helper
`assign_new_segment_callback` lives in the C++ bindings, which are not
under `src/`. -/
def engineCallbackTarget {α : Type} (reg : CallbackRegistry α) : Option α :=
  if reg.paramsAssigned then reg.classSlot else none

/-- Claim C9: a callback registration is never cleared — after a
`transcribe` call that supplied a callback, a later call supplying none
leaves the callback in the params struct and in the class-level slot, so
the engine still drives the earlier callback during the later call. -/
theorem callback_registration_persists {α : Type} (reg : CallbackRegistry α) (c : α) :
    (setupCallback (setupCallback reg (some c)) none).classSlot = some c ∧
    (setupCallback (setupCallback reg (some c)) none).paramsAssigned = true ∧
    engineCallbackTarget (setupCallback (setupCallback reg (some c)) none) = some c := by
  refine ⟨rfl, rfl, ?_⟩
  unfold engineCallbackTarget setupCallback
  rfl

/-- The value of one whisper parameter override.  The native params struct
exposes typed fields; a value of the wrong type is rejected just like an
unknown name (both raise). -/
inductive ParamValue
  | int (i : Int)
  | str (s : String)
  | bool (b : Bool)
deriving DecidableEq, Repr

/-- Modelled from the spec: the fixed schema of known whisper options
(thread count, language, translate flag, ...) carried by the native params
struct; the pybind11 `Params` class itself is defined in the C++ bindings,
which are not under `src/`.  Three representative typed fields stand for
the schema. -/
structure FullParams where
  n_threads : Int
  language : String
  translate : Bool
deriving DecidableEq, Repr

/-- Python `setattr(self._params, name, value)` on the bound params
struct: assigns a known field, and returns `none` (an `AttributeError`,
surfaced by the spec as UsageError) for an unrecognized field name. -/
def setattrParams (p : FullParams) (name : String) (v : ParamValue) :
    Option FullParams :=
  match name, v with
  | "n_threads", .int i => some { p with n_threads := i }
  | "language", .str s => some { p with language := s }
  | "translate", .bool b => some { p with translate := b }
  | _, _ => none

/-- Method `Model._set_params(kwargs)` (`model.py` lines 234-241): iterate the
overrides in order and `setattr` each one on the params struct.  The
result pairs the params state when the loop stops with the name that
raised (`none` when all names were recognized): a raise propagates but the
mutations already performed persist. -/
def setParams (p : FullParams) :
    List (String × ParamValue) → FullParams × Option String
  | [] => (p, none)
  | (name, v) :: rest =>
    match setattrParams p name v with
    | some p2 => setParams p2 rest
    | none => (p, some name)

/-- The effect of applying a list of recognized overrides in order. -/
def applyKnown (p : FullParams) (l : List (String × ParamValue)) : FullParams :=
  l.foldl (fun q x => (setattrParams q x.1 x.2).getD q) p

/-- A params value used as the starting state in the parameter theorems. -/
def demoParams : FullParams where
  n_threads := 4
  language := "en"
  translate := false

/-- Claim C5, counterexample: applying overrides that name a recognized
field before an unrecognized one raises, yet the earlier override has
already been applied — the previously set `n_threads` does not retain its
value, so application is not atomic. -/
theorem set_params_not_atomic :
    (setParams demoParams
      [("n_threads", ParamValue.int 8), ("unknown_field", ParamValue.int 1)]).2 =
      some "unknown_field" ∧
    (setParams demoParams
      [("n_threads", ParamValue.int 8), ("unknown_field", ParamValue.int 1)]).1.n_threads = 8 ∧
    demoParams.n_threads = 4 := by
  refine ⟨rfl, rfl, rfl⟩

/-- Claim C5, amended: applying overrides containing an unrecognized field
name fails with UsageError at the first unrecognized name, and the state
after the failure is exactly the prefix of recognized overrides applied in
order — overrides before the failing name are applied, every field not
named in that prefix keeps its prior value, and nothing after the failing
name is applied. -/
theorem set_params_partial_application (p : FullParams)
    (pre : List (String × ParamValue)) (bad : String) (v : ParamValue)
    (rest : List (String × ParamValue))
    (hpre : ∀ x ∈ pre, ∀ q : FullParams, (setattrParams q x.1 x.2).isSome = true)
    (hbad : ∀ q : FullParams, setattrParams q bad v = none) :
    setParams p (pre ++ (bad, v) :: rest) = (applyKnown p pre, some bad) := by
  induction pre generalizing p with
  | nil =>
    simp only [List.nil_append, applyKnown, List.foldl_nil]
    unfold setParams
    rw [hbad p]
  | cons x pre ih =>
    have hx := hpre x (by simp)
    obtain ⟨p2, hp2⟩ := Option.isSome_iff_exists.mp (hx p)
    simp only [List.cons_append]
    unfold setParams
    rw [hp2]
    show setParams p2 (pre ++ (bad, v) :: rest) = (applyKnown p (x :: pre), some bad)
    rw [ih p2 (fun y hy => hpre y (by simp [hy]))]
    unfold applyKnown
    rw [List.foldl_cons, hp2]
    rfl

/-- Claim C5, witness: the amended theorem applied at a concrete params
state and override list. -/
theorem set_params_partial_application_instance :
    ((∀ x ∈ [(("n_threads" : String), ParamValue.int 8)],
      ∀ q : FullParams, (setattrParams q x.1 x.2).isSome = true) ∧
     (∀ q : FullParams, setattrParams q "unknown_field" (ParamValue.int 1) = none)) ∧
    setParams demoParams
      [("n_threads", ParamValue.int 8), ("unknown_field", ParamValue.int 1)] =
      (applyKnown demoParams [("n_threads", ParamValue.int 8)], some "unknown_field") :=
  ⟨⟨fun x hx q => by
      have : x = (("n_threads" : String), ParamValue.int 8) := by
        simpa using hx
      rw [this]; rfl,
    fun q => rfl⟩,
    set_params_partial_application demoParams
      [("n_threads", ParamValue.int 8)] "unknown_field" (ParamValue.int 1) []
      (fun x hx q => by
        have : x = (("n_threads" : String), ParamValue.int 8) := by
          simpa using hx
        rw [this]; rfl)
      (fun q => rfl)⟩

/-- Constant `pw.WHISPER_SAMPLE_RATE`: the fixed 16000 Hz sample rate the
bindings re-export from whisper.cpp. -/
def WHISPER_SAMPLE_RATE : Nat := 16000

/-- The audio-path error taxonomy, naming the spec categories for the
exceptions raised in `Model._load_audio` (`wave`-layout `Exception`s,
the missing-ffmpeg `Exception`, `subprocess.CalledProcessError`, and the
`FileNotFoundError` raised by `transcribe` / `auto_detect_language`). -/
inductive AudioError
  | formatError (msg : String)
  | conversionUnavailable
  | conversionFailed
  | notFound (path : String)
deriving DecidableEq, Repr

/-- What `wave.open` exposes about a WAV file in `wav_to_np` (`model.py`
lines 287-304): header fields plus the frame bytes reinterpreted as
interleaved int16 samples by `np.frombuffer(raw, dtype=np.int16)`.  For a
well-formed file `samples.length = numFrames * numChannels` and every
sample lies in the int16 range. -/
structure WavFile where
  numChannels : Nat
  sampleWidth : Nat
  sampleRate : Nat
  numFrames : Nat
  samples : List Int
deriving DecidableEq, Repr

/-- Operation `audio.reshape(-1, 2)` on the interleaved sample list: consecutive
pairs.  The `wave` reader always yields an even sample count for a
two-channel file, so the dangling-element case is unreachable there. -/
def stereoPairs : List Int → List (Int × Int)
  | [] => []
  | [_] => []
  | a :: b :: rest => (a, b) :: stereoPairs rest

/-- The inner `wav_to_np` of `Model._load_audio` (`model.py` lines
286-312): validate channel count, sample rate and sample width, then
normalize — mono samples are divided by 32768.0, stereo channel pairs are
summed and divided by 65536.0.  Every numeric step is exact in float32
(int16 to float32 conversion, addition of two int16 values, division by a
power of two), so the rational result equals the float32 result. -/
def wav_to_np (wf : WavFile) : Except AudioError (List ℚ) :=
  if ¬(wf.numChannels = 1 ∨ wf.numChannels = 2) then
    Except.error (AudioError.formatError "WAV file must be mono or stereo")
  else if wf.sampleRate ≠ WHISPER_SAMPLE_RATE then
    Except.error (AudioError.formatError "WAV file must be 16000 Hz")
  else if wf.sampleWidth ≠ 2 then
    Except.error (AudioError.formatError "WAV file must be 16-bit")
  else if wf.numChannels = 1 then
    Except.ok (wf.samples.map (fun (s : Int) => (s : ℚ) / 32768))
  else
    Except.ok ((stereoPairs wf.samples).map (fun p => ((p.1 : ℚ) + (p.2 : ℚ)) / 65536))

lemma stereoPairs_length : ∀ l : List Int, (stereoPairs l).length = l.length / 2
  | [] => rfl
  | [_] => by simp [stereoPairs]
  | a :: b :: rest => by
    show ((a, b) :: stereoPairs rest).length = (a :: b :: rest).length / 2
    rw [List.length_cons, stereoPairs_length rest]
    simp only [List.length_cons]
    omega

lemma stereoPairs_get? : ∀ (l : List Int) (i : Nat),
    (stereoPairs l).get? i =
      (l.get? (2 * i)).bind (fun a => (l.get? (2 * i + 1)).map (fun b => (a, b)))
  | [], i => by simp [stereoPairs]
  | [a], i => by
    cases i with
    | zero => rfl
    | succ j =>
      have h : ([a] : List Int).get? (2 * (j + 1)) = none :=
        List.get?_eq_none.mpr (by simp; omega)
      show (([] : List (Int × Int)).get? (j + 1)) = _
      simp [h]
  | a :: b :: rest, i => by
    cases i with
    | zero => rfl
    | succ j =>
      show ((a, b) :: stereoPairs rest).get? (j + 1) = _
      rw [List.get?_cons_succ]
      have h1 : 2 * (j + 1) = 2 * j + 1 + 1 := by ring
      rw [h1]
      rw [List.get?_cons_succ, List.get?_cons_succ, List.get?_cons_succ,
        List.get?_cons_succ]
      exact stereoPairs_get? rest j

lemma int16_div_bounds (s : Int) (h1 : -32768 ≤ s) (h2 : s ≤ 32767) :
    -1 ≤ (s : ℚ) / 32768 ∧ (s : ℚ) / 32768 ≤ 1 := by
  constructor
  · rw [le_div_iff (by norm_num : (0:ℚ) < 32768)]
    have hs : (-32768 : ℚ) ≤ (s : ℚ) := by exact_mod_cast h1
    linarith
  · rw [div_le_one (by norm_num : (0:ℚ) < 32768)]
    have hs : (s : ℚ) ≤ 32767 := by exact_mod_cast h2
    linarith

/-- Claim C3: for a valid mono 16 kHz 16-bit WAV of N frames, `load_audio`
produces an array of length N whose i-th element is `sample[i] / 32768.0`,
and (for int16 samples) every value lies in [-1, 1]. -/
theorem mono_normalization (wf : WavFile)
    (hc : wf.numChannels = 1) (hr : wf.sampleRate = 16000) (hw : wf.sampleWidth = 2)
    (hlen : wf.samples.length = wf.numFrames) :
    ∃ out : List ℚ, wav_to_np wf = Except.ok out ∧
      out.length = wf.numFrames ∧
      (∀ i s, wf.samples.get? i = some s → out.get? i = some ((s : ℚ) / 32768)) ∧
      ((∀ s ∈ wf.samples, -32768 ≤ s ∧ s ≤ 32767) →
        ∀ q ∈ out, -1 ≤ q ∧ q ≤ 1) := by
  refine ⟨wf.samples.map (fun (s : Int) => (s : ℚ) / 32768), ?_, ?_, ?_, ?_⟩
  · simp [wav_to_np, hc, hr, hw, WHISPER_SAMPLE_RATE]
  · rw [List.length_map, hlen]
  · intro i s hs
    rw [List.get?_map, hs]
    rfl
  · intro hrange q hq
    obtain ⟨s, hmem, rfl⟩ := List.mem_map.mp hq
    exact int16_div_bounds s (hrange s hmem).1 (hrange s hmem).2

/-- Claim C2: for a valid stereo 16 kHz 16-bit WAV, downmixed output
sample i equals `(left[i] + right[i]) / 65536.0` — the channel sum divided
by the full 16-bit-pair scale. -/
theorem stereo_downmix_formula (wf : WavFile) (n : Nat)
    (hc : wf.numChannels = 2) (hr : wf.sampleRate = 16000) (hw : wf.sampleWidth = 2)
    (hlen : wf.samples.length = 2 * n) :
    ∃ out : List ℚ, wav_to_np wf = Except.ok out ∧ out.length = n ∧
      ∀ i a b, wf.samples.get? (2 * i) = some a →
        wf.samples.get? (2 * i + 1) = some b →
        out.get? i = some (((a : ℚ) + (b : ℚ)) / 65536) := by
  refine ⟨(stereoPairs wf.samples).map (fun p => ((p.1 : ℚ) + (p.2 : ℚ)) / 65536),
    ?_, ?_, ?_⟩
  · simp [wav_to_np, hc, hr, hw, WHISPER_SAMPLE_RATE]
  · rw [List.length_map, stereoPairs_length, hlen]
    omega
  · intro i a b ha hb
    rw [List.get?_map, stereoPairs_get? wf.samples i, ha, hb]
    rfl

/-- Claim C7: a WAV whose channel count is not 1 or 2, or whose sample
rate is not 16000 Hz, or whose sample width is not 16-bit, fails with
FormatError and yields no audio buffer. -/
theorem wav_format_validation (wf : WavFile)
    (h : ¬(wf.numChannels = 1 ∨ wf.numChannels = 2) ∨
      wf.sampleRate ≠ 16000 ∨ wf.sampleWidth ≠ 2) :
    ∃ msg, wav_to_np wf = Except.error (AudioError.formatError msg) := by
  unfold wav_to_np
  by_cases h1 : wf.numChannels = 1 ∨ wf.numChannels = 2
  · by_cases h2 : wf.sampleRate = WHISPER_SAMPLE_RATE
    · by_cases h3 : wf.sampleWidth = 2
      · exfalso
        rcases h with ha | hb | hc2
        · exact ha h1
        · exact hb (by simpa [WHISPER_SAMPLE_RATE] using h2)
        · exact hc2 h3
      · exact ⟨"WAV file must be 16-bit", by
          rw [if_neg (not_not_intro h1), if_neg (not_not_intro h2), if_pos h3]⟩
    · exact ⟨"WAV file must be 16000 Hz", by
        rw [if_neg (not_not_intro h1), if_pos h2]⟩
  · exact ⟨"WAV file must be mono or stereo", by rw [if_pos h1]⟩

/-- A concrete mono WAV used to instantiate the normalization theorem. -/
def demoMonoWav : WavFile where
  numChannels := 1
  sampleWidth := 2
  sampleRate := 16000
  numFrames := 3
  samples := [0, 16384, -32768]

/-- Claim C3, witness: the mono-normalization theorem applied at a
concrete WAV. -/
theorem mono_normalization_instance :
    (demoMonoWav.numChannels = 1 ∧ demoMonoWav.sampleRate = 16000 ∧
     demoMonoWav.sampleWidth = 2 ∧ demoMonoWav.samples.length = demoMonoWav.numFrames) ∧
    (∃ out : List ℚ, wav_to_np demoMonoWav = Except.ok out ∧
      out.length = demoMonoWav.numFrames ∧
      (∀ i s, demoMonoWav.samples.get? i = some s →
        out.get? i = some ((s : ℚ) / 32768)) ∧
      ((∀ s ∈ demoMonoWav.samples, -32768 ≤ s ∧ s ≤ 32767) →
        ∀ q ∈ out, -1 ≤ q ∧ q ≤ 1)) :=
  ⟨⟨by decide, by decide, by decide, by decide⟩,
    mono_normalization demoMonoWav (by decide) (by decide) (by decide) (by decide)⟩

/-- A concrete stereo WAV used to instantiate the downmix theorem. -/
def demoStereoWav : WavFile where
  numChannels := 2
  sampleWidth := 2
  sampleRate := 16000
  numFrames := 2
  samples := [100, 200, -50, 50]

/-- Claim C2, witness: the stereo-downmix theorem applied at a concrete
WAV. -/
theorem stereo_downmix_formula_instance :
    (demoStereoWav.numChannels = 2 ∧ demoStereoWav.sampleRate = 16000 ∧
     demoStereoWav.sampleWidth = 2 ∧ demoStereoWav.samples.length = 2 * 2) ∧
    (∃ out : List ℚ, wav_to_np demoStereoWav = Except.ok out ∧ out.length = 2 ∧
      ∀ i a b, demoStereoWav.samples.get? (2 * i) = some a →
        demoStereoWav.samples.get? (2 * i + 1) = some b →
        out.get? i = some (((a : ℚ) + (b : ℚ)) / 65536)) :=
  ⟨⟨by decide, by decide, by decide, by decide⟩,
    stereo_downmix_formula demoStereoWav 2 (by decide) (by decide) (by decide) (by decide)⟩

/-- A three-channel WAV used to instantiate the format-validation
theorem. -/
def demoBadWav : WavFile where
  numChannels := 3
  sampleWidth := 2
  sampleRate := 16000
  numFrames := 0
  samples := []

/-- Claim C7, witness: the format-validation theorem applied at a
three-channel WAV. -/
theorem wav_format_validation_instance :
    (¬(demoBadWav.numChannels = 1 ∨ demoBadWav.numChannels = 2) ∨
      demoBadWav.sampleRate ≠ 16000 ∨ demoBadWav.sampleWidth ≠ 2) ∧
    ∃ msg, wav_to_np demoBadWav = Except.error (AudioError.formatError msg) :=
  ⟨by decide, wav_format_validation demoBadWav (by decide)⟩

/-- The environment consulted by the non-WAV conversion path of
`Model._load_audio` (`model.py` lines 317-331): whether `shutil.which`
finds ffmpeg on the search path, and the outcome of the external `ffmpeg`
run — `some wf` for exit status 0 leaving the WAV `wf` at the temp path,
`none` for a nonzero exit (`subprocess.CalledProcessError`). -/
structure ConvWorld where
  ffmpegAvailable : Bool
  convertedWav : Option WavFile

/-- Outcome of one `_load_audio` call: the returned value or raised error,
the set of existing temporary files after the call, whether a temporary
file was created, and whether the external converter was invoked. -/
structure LoadOutcome where
  result : Except AudioError (List ℚ)
  fs : List String
  tempCreated : Bool
  converterInvoked : Bool

/-- The non-WAV branch of `Model._load_audio` (`model.py` lines 317-331):
check for ffmpeg (raising before any file is created when it is absent),
create the named temporary file with `delete=False`, run the converter and
decode its output inside `try`, and remove the temporary file in
`finally` — on conversion failure, decode failure and success alike.
`fs` is the set of existing temporary files, threaded explicitly. -/
def loadAudioNonWav (w : ConvWorld) (fs : List String) (tempName : String) :
    LoadOutcome :=
  if w.ffmpegAvailable = false then
    { result := Except.error AudioError.conversionUnavailable,
      fs := fs, tempCreated := false, converterInvoked := false }
  else
    let fs1 := tempName :: fs
    let body : Except AudioError (List ℚ) :=
      match w.convertedWav with
      | none => Except.error AudioError.conversionFailed
      | some wf => wav_to_np wf
    let fs2 := fs1.erase tempName
    { result := body, fs := fs2, tempCreated := true, converterInvoked := true }

/-- The file-system environment of a media-loading call: path existence,
the WAV data parsed from a path by the `wave` reader, and the conversion
environment. -/
structure MediaWorld where
  pathExists : String → Bool
  wavContent : String → WavFile
  ffmpegAvailable : Bool
  convertedWav : Option WavFile

/-- Python `media_file_path.endswith(".wav")`: a character-level suffix
test on the path string. -/
def pyEndsWith (s suf : String) : Bool :=
  suf.toList.isSuffixOf s.toList

/-- Method `Model._load_audio(media_file_path)` (`model.py` lines 314-331):
dispatch solely on the literal path suffix `.wav` — parse directly via
`wav_to_np` when it matches, otherwise take the external-conversion
branch.  File contents play no part in the dispatch. -/
def loadAudio (w : MediaWorld) (path tempName : String) (fs : List String) :
    LoadOutcome :=
  if pyEndsWith path ".wav" then
    { result := wav_to_np (w.wavContent path), fs := fs,
      tempCreated := false, converterInvoked := false }
  else
    loadAudioNonWav ⟨w.ffmpegAvailable, w.convertedWav⟩ fs tempName

/-- Media argument of `transcribe` / `auto_detect_language`: a raw numpy
array or a file path. -/
inductive Media
  | array (pcm : List ℚ)
  | path (p : String)

/-- The media-resolution prefix of `Model.transcribe` (`model.py` lines
117-122) composed with the result adaptation: a path is first checked
with `Path(media).exists()` and `FileNotFoundError` (NotFound) is raised
before `_load_audio` runs; an ndarray is used as-is.  The `Option` inside
`ok` carries the engine-side adaptation result; the remaining components
mirror the `LoadOutcome` trace. -/
def transcribeMedia (w : MediaWorld) (e : EngineState) (media : Media)
    (tempName : String) (fs : List String) :
    Except AudioError (Option (List Segment × String)) × List String × Bool × Bool :=
  match media with
  | Media.array _ => (Except.ok (transcribeCore e), fs, false, false)
  | Media.path p =>
    if w.pathExists p = false then
      (Except.error (AudioError.notFound p), fs, false, false)
    else
      let o := loadAudio w p tempName fs
      match o.result with
      | Except.error err => (Except.error err, o.fs, o.tempCreated, o.converterInvoked)
      | Except.ok _ => (Except.ok (transcribeCore e), o.fs, o.tempCreated, o.converterInvoked)

/-- The media-resolution prefix of `Model.auto_detect_language`
(`model.py` lines 342-347): the identical existence check runs before
`_load_audio`; the resolved PCM buffer is what the detection path then
feeds to the engine. -/
def autoDetectLanguageMedia (w : MediaWorld) (media : Media)
    (tempName : String) (fs : List String) :
    Except AudioError (List ℚ) × List String × Bool × Bool :=
  match media with
  | Media.array a => (Except.ok a, fs, false, false)
  | Media.path p =>
    if w.pathExists p = false then
      (Except.error (AudioError.notFound p), fs, false, false)
    else
      let o := loadAudio w p tempName fs
      (o.result, o.fs, o.tempCreated, o.converterInvoked)

/-- Claim C6: for a non-WAV input the temporary conversion file does not
exist after the call on any exit path; the call fails with
ConversionUnavailable when the converter tool is absent (no temp file is
even created), and with ConversionFailed when the tool exits non-zero. -/
theorem conversion_temp_cleanup (w : ConvWorld) (fs : List String)
    (tempName : String) (hfresh : tempName ∉ fs) :
    tempName ∉ (loadAudioNonWav w fs tempName).fs ∧
    (w.ffmpegAvailable = false →
      (loadAudioNonWav w fs tempName).result =
        Except.error AudioError.conversionUnavailable ∧
      (loadAudioNonWav w fs tempName).tempCreated = false) ∧
    (w.ffmpegAvailable = true → w.convertedWav = none →
      (loadAudioNonWav w fs tempName).result =
        Except.error AudioError.conversionFailed) := by
  cases hav : w.ffmpegAvailable with
  | false =>
    refine ⟨?_, fun _ => ⟨?_, ?_⟩, fun hc => absurd hc (by decide)⟩
    · simpa [loadAudioNonWav, hav] using hfresh
    · simp [loadAudioNonWav, hav]
    · simp [loadAudioNonWav, hav]
  | true =>
    refine ⟨?_, fun hc => absurd hc (by decide), fun _ hnone => ?_⟩
    · simpa [loadAudioNonWav, hav, List.erase_cons_head] using hfresh
    · simp [loadAudioNonWav, hav, hnone]

/-- A conversion environment with ffmpeg present but exiting non-zero,
used to instantiate the cleanup theorem. -/
def demoConvWorld : ConvWorld where
  ffmpegAvailable := true
  convertedWav := none

/-- Claim C6, witness: the cleanup theorem applied at a concrete
environment and fresh temp name. -/
theorem conversion_temp_cleanup_instance :
    ("tmp.wav" ∉ ([] : List String)) ∧
    ("tmp.wav" ∉ (loadAudioNonWav demoConvWorld [] "tmp.wav").fs ∧
    (demoConvWorld.ffmpegAvailable = false →
      (loadAudioNonWav demoConvWorld [] "tmp.wav").result =
        Except.error AudioError.conversionUnavailable ∧
      (loadAudioNonWav demoConvWorld [] "tmp.wav").tempCreated = false) ∧
    (demoConvWorld.ffmpegAvailable = true → demoConvWorld.convertedWav = none →
      (loadAudioNonWav demoConvWorld [] "tmp.wav").result =
        Except.error AudioError.conversionFailed)) :=
  ⟨by decide, conversion_temp_cleanup demoConvWorld [] "tmp.wav" (by decide)⟩

/-- Claim C8: for a nonexistent path, both transcription and language
detection fail with NotFound before any conversion attempt — the
converter is not invoked, no temporary file is created, and the
file-system state is unchanged. -/
theorem nonexistent_path_not_found (w : MediaWorld) (e : EngineState)
    (p tempName : String) (fs : List String) (h : w.pathExists p = false) :
    transcribeMedia w e (Media.path p) tempName fs =
      (Except.error (AudioError.notFound p), fs, false, false) ∧
    autoDetectLanguageMedia w (Media.path p) tempName fs =
      (Except.error (AudioError.notFound p), fs, false, false) := by
  constructor
  · simp only [transcribeMedia]
    rw [if_pos h]
  · simp only [autoDetectLanguageMedia]
    rw [if_pos h]

/-- A file-system environment in which no path exists, used to
instantiate the NotFound theorem. -/
def demoMediaWorld : MediaWorld where
  pathExists := fun _ => false
  wavContent := fun _ => demoMonoWav
  ffmpegAvailable := true
  convertedWav := none

/-- Claim C8, witness: the NotFound theorem applied at a concrete
environment and path. -/
theorem nonexistent_path_not_found_instance :
    demoMediaWorld.pathExists "speech.mp3" = false ∧
    (transcribeMedia demoMediaWorld demoEngine (Media.path "speech.mp3") "tmp.wav" [] =
      (Except.error (AudioError.notFound "speech.mp3"), [], false, false) ∧
    autoDetectLanguageMedia demoMediaWorld (Media.path "speech.mp3") "tmp.wav" [] =
      (Except.error (AudioError.notFound "speech.mp3"), [], false, false)) :=
  ⟨rfl, nonexistent_path_not_found demoMediaWorld demoEngine "speech.mp3" "tmp.wav" [] rfl⟩

/-- A file-system environment in which every path exists, used to
instantiate the routing theorem. -/
def demoMediaWorldAll : MediaWorld where
  pathExists := fun _ => true
  wavContent := fun _ => demoMonoWav
  ffmpegAvailable := true
  convertedWav := none

/-- Claim C10: `_load_audio` routes on nothing but the literal suffix
`.wav` of the path — a `.wav` path is parsed directly (converter never
invoked, no temp file), and any other path goes through the conversion
branch whatever the file contents are (the outcome does not depend on the
parsed WAV content, and the converter runs whenever the tool is
present). -/
theorem wav_suffix_routing (w : MediaWorld) (p tempName : String) (fs : List String) :
    (pyEndsWith p ".wav" = true →
      loadAudio w p tempName fs =
        { result := wav_to_np (w.wavContent p), fs := fs,
          tempCreated := false, converterInvoked := false }) ∧
    (pyEndsWith p ".wav" = false →
      loadAudio w p tempName fs =
        loadAudioNonWav ⟨w.ffmpegAvailable, w.convertedWav⟩ fs tempName ∧
      (w.ffmpegAvailable = true →
        (loadAudio w p tempName fs).converterInvoked = true)) := by
  constructor
  · intro h
    unfold loadAudio
    rw [if_pos h]
  · intro h
    have hn : ¬(pyEndsWith p ".wav" = true) := by simp [h]
    refine ⟨?_, fun hav => ?_⟩
    · unfold loadAudio
      rw [if_neg hn]
    · unfold loadAudio loadAudioNonWav
      rw [if_neg hn]
      simp [hav]

/-- Claim C10, witness: the routing theorem applied on both sides — a
`.wav` path and an `.mp3` path — in a concrete environment. -/
theorem wav_suffix_routing_instance :
    (pyEndsWith "a.wav" ".wav" = true ∧
      loadAudio demoMediaWorldAll "a.wav" "tmp.wav" [] =
        { result := wav_to_np (demoMediaWorldAll.wavContent "a.wav"), fs := [],
          tempCreated := false, converterInvoked := false }) ∧
    (pyEndsWith "b.mp3" ".wav" = false ∧
      (loadAudio demoMediaWorldAll "b.mp3" "tmp.wav" [] =
        loadAudioNonWav
          ⟨demoMediaWorldAll.ffmpegAvailable, demoMediaWorldAll.convertedWav⟩
          [] "tmp.wav" ∧
      (demoMediaWorldAll.ffmpegAvailable = true →
        (loadAudio demoMediaWorldAll "b.mp3" "tmp.wav" []).converterInvoked = true))) :=
  ⟨⟨by decide, (wav_suffix_routing demoMediaWorldAll "a.wav" "tmp.wav" []).1 (by decide)⟩,
   ⟨by decide, (wav_suffix_routing demoMediaWorldAll "b.mp3" "tmp.wav" []).2 (by decide)⟩⟩
